import Mathlib

/-!
Shallow embedding of the multistreamchat message pipeline and its two
platform connectors, with theorems checking the natural-language
specification against the code.

The embedding follows the source:
* `src/pages/useChat.ts` — the moderation/dedup/commit pipeline
  (`getMessageKey`, `cleanupProcessedIds`, `hasPrivilegedBadge`,
  `addMessage`, `handleNewMessage`, `removeMessage`,
  `removeMessageByMsgId`, `removeMessagesByUser`).
* `src/services/KickChat.ts` — the Kick pub/sub connector
  (connect sequence, subscribe/ping payloads, reconnect on close).
* `src/services/AuthService.ts` — the Twitch badge resolution
  (`getBadgeUrl`, `parseBadges`).
* `src/components/MessageRow.tsx` — the per-message hide timer.

Browser timers are made explicit: every `setTimeout` becomes a `Timer`
record with its scheduled fire time, `clearTimeout` removes the record,
and an event relation (`step`/`run`) drives the state.  The `commitLog`
field is instrumentation recording each `addMessage` call with the time
at which it happened; it is written only by `addMessage`.
-/

namespace MultistreamChat

/-- A badge attached to a chat message (src/types.ts `Badge`). -/
structure Badge where
  type : String
  version : String
  url : String
  description : String
deriving DecidableEq

/-- A chat message (src/types.ts `ChatMessage`), restricted to the fields
the pipeline inspects.  `msgId` is `""` when the platform supplied no id,
exactly as the services construct it (`data.id?.toString() || ''`). -/
structure ChatMessage where
  id : String
  userId : String
  displayName : String
  text : String
  badges : List Badge
  timestamp : Nat
  provider : String
  msgId : String
deriving DecidableEq

/-- The chat configuration (src/types.ts `ChatConfig`), restricted to the
fields the pipeline reads. -/
structure ChatConfig where
  hideAfter : Nat
  messagesLimit : Nat
  hideCommands : Bool
  ignoredUsers : List String
deriving DecidableEq

/-- useChat.ts `DEFAULT_CONFIG` (the config state is never mutated). -/
def DEFAULT_CONFIG : ChatConfig :=
  { hideAfter := 180
    messagesLimit := 20
    hideCommands := true
    ignoredUsers := ["streamelements", "@streamelements", "cuscuzbot"] }

/-- useChat.ts `DEFAULT_DELAY_MS`. -/
def DEFAULT_DELAY_MS : Nat := 5000

/-- useChat.ts `PROCESSED_MESSAGES_LIMIT`. -/
def PROCESSED_MESSAGES_LIMIT : Nat := 1000

/-- useChat.ts `PROCESSED_MESSAGES_KEEP`. -/
def PROCESSED_MESSAGES_KEEP : Nat := 500

/-- useChat.ts `PRIVILEGED_BADGES` (note the underscore spellings in the
source). -/
def PRIVILEGED_BADGES : List String :=
  ["lead_moderator", "moderator", "vip", "broadcaster", "owner", "og",
   "staff", "super_admin"]

/-- JS `String.prototype.toLowerCase`, character by character. -/
def toLowerStr (s : String) : String :=
  String.mk (s.data.map Char.toLower)

/-- JS `String.prototype.startsWith`. -/
def strStartsWith (s p : String) : Bool :=
  p.data.isPrefixOf s.data

/-- messageUtils.ts `shouldHideMessage`. -/
def shouldHideMessage (text : String) (hideCommands : Bool)
    (ignoredUsers : List String) (displayName : String) : Bool :=
  (hideCommands && strStartsWith text "!") ||
    ignoredUsers.contains (toLowerStr displayName)

/-- useChat.ts `getMessageKey`: the platform `msgId` when truthy, otherwise
the composite template string. -/
def getMessageKey (m : ChatMessage) : String :=
  if m.msgId = "" then
    m.provider ++ "-" ++ m.userId ++ "-" ++ m.text ++ "-" ++
      toString m.timestamp
  else m.msgId

/-- useChat.ts `cleanupProcessedIds`: when the recently-seen set exceeds
1000 keys, keep only the most recent 500 (insertion order). -/
def cleanupProcessedIds (processed : List String) : List String :=
  if processed.length > PROCESSED_MESSAGES_LIMIT then
    processed.drop (processed.length - PROCESSED_MESSAGES_KEEP)
  else processed

/-- useChat.ts `hasPrivilegedBadge`. -/
def hasPrivilegedBadge (badges : List Badge) : Bool :=
  badges.any (fun b => PRIVILEGED_BADGES.contains (toLowerStr b.type))

/-- A live `setTimeout` callback scheduled by `handleNewMessage`; firing it
runs `addMessage message`.  `fireAt` is schedule time plus the delay. -/
structure Timer where
  tid : Nat
  message : ChatMessage
  fireAt : Nat
deriving DecidableEq

/-- An entry of `pendingTimeoutsRef` (a JS `Map` keyed by `msgId`, holding
the timeout handle and the message). -/
structure PendingRef where
  key : String
  tid : Nat
  message : ChatMessage
deriving DecidableEq

/-- The pipeline state of `useChat`. -/
structure ChatState where
  processed : List String
  timers : List Timer
  pendingTimeouts : List PendingRef
  messages : List ChatMessage
  commitLog : List (ChatMessage × Nat)
  nextTid : Nat
deriving DecidableEq

def initState : ChatState :=
  { processed := [], timers := [], pendingTimeouts := [], messages := []
    commitLog := [], nextTid := 0 }

/-- JS `Map.get` on the pending table (keys are unique in a `Map`). -/
def pendingGet (l : List PendingRef) (k : String) : Option PendingRef :=
  l.find? (fun p => p.key == k)

/-- JS `Map.delete` on the pending table. -/
def pendingErase (l : List PendingRef) (k : String) : List PendingRef :=
  l.filter (fun p => p.key != k)

/-- JS `Map.set`: replace in place when the key exists, else append. -/
def pendingSet (l : List PendingRef) (p : PendingRef) : List PendingRef :=
  if (l.find? (fun q => q.key == p.key)).isSome then
    l.map (fun q => if q.key == p.key then p else q)
  else l ++ [p]

/-- JS `arr.slice(-n)`: the last `n` elements; `slice(-0)` is `slice(0)`,
the whole array. -/
def sliceLast (n : Nat) (l : List ChatMessage) : List ChatMessage :=
  if n = 0 then l else l.drop (l.length - n)

/-- useChat.ts `addMessage`: drop the pending-table entry for the message's
`msgId` (when present), append to history, and truncate to the last
`messagesLimit` entries when over the cap.  `now` feeds the commit log. -/
def addMessage (cfg : ChatConfig) (s : ChatState) (m : ChatMessage)
    (now : Nat) : ChatState :=
  let pending' :=
    if m.msgId != "" then pendingErase s.pendingTimeouts m.msgId
    else s.pendingTimeouts
  let newMessages := s.messages ++ [m]
  let messages' :=
    if newMessages.length > cfg.messagesLimit then
      sliceLast cfg.messagesLimit newMessages
    else newMessages
  { s with pendingTimeouts := pending', messages := messages'
           commitLog := s.commitLog ++ [(m, now)] }

/-- useChat.ts `handleNewMessage`: dedup on `getMessageKey`, trim the seen
set, filter, then either commit immediately (privileged) or schedule an
`addMessage` timer after `delay`, registering it in the pending table only
when the message has a `msgId`. -/
def handleNewMessage (cfg : ChatConfig) (delay : Nat) (s : ChatState)
    (m : ChatMessage) (t : Nat) : ChatState :=
  let key := getMessageKey m
  if s.processed.contains key then s
  else
    let processed' := cleanupProcessedIds (s.processed ++ [key])
    if shouldHideMessage m.text cfg.hideCommands cfg.ignoredUsers
        m.displayName then
      { s with processed := processed' }
    else if hasPrivilegedBadge m.badges then
      addMessage cfg { s with processed := processed' } m t
    else
      let tmr : Timer := ⟨s.nextTid, m, t + delay⟩
      let scheduled : ChatState :=
        { s with processed := processed', timers := s.timers ++ [tmr]
                 nextTid := s.nextTid + 1 }
      if m.msgId != "" then
        { scheduled with
            pendingTimeouts :=
              pendingSet scheduled.pendingTimeouts ⟨m.msgId, tmr.tid, m⟩ }
      else scheduled

/-- A scheduled timer elapsing: only a live timer whose fire time has been
reached can run, and running it performs `addMessage` on its message. -/
def fireTimer (cfg : ChatConfig) (s : ChatState) (tid : Nat) (now : Nat) :
    ChatState :=
  match s.timers.find? (fun tmr => tmr.tid == tid) with
  | none => s
  | some tmr =>
    if tmr.fireAt ≤ now then
      addMessage cfg
        { s with timers := s.timers.filter (fun u => u.tid != tid) }
        tmr.message now
    else s

/-- useChat.ts `removeMessage` (the per-row hide callback): drop by `id`. -/
def removeMessage (s : ChatState) (messageId : String) : ChatState :=
  { s with messages := s.messages.filter (fun m => m.id != messageId) }

/-- useChat.ts `removeMessageByMsgId`: cancel the pending entry for the
`msgId` when present, then drop matching committed messages. -/
def removeMessageByMsgId (s : ChatState) (msgId : String) : ChatState :=
  let s' :=
    match pendingGet s.pendingTimeouts msgId with
    | some p =>
      { s with timers := s.timers.filter (fun tmr => tmr.tid != p.tid)
               pendingTimeouts := pendingErase s.pendingTimeouts msgId }
    | none => s
  { s' with messages := s'.messages.filter (fun m => m.msgId != msgId) }

/-- useChat.ts `removeMessagesByUser`: cancel every tracked pending entry
whose author matches (case-insensitive) and drop the author's committed
messages. -/
def removeMessagesByUser (s : ChatState) (username : String) : ChatState :=
  let lower := toLowerStr username
  let cancelled :=
    s.pendingTimeouts.filter
      (fun p => toLowerStr p.message.displayName == lower)
  { s with
      timers :=
        s.timers.filter
          (fun tmr => !cancelled.any (fun p => p.tid == tmr.tid))
      pendingTimeouts :=
        s.pendingTimeouts.filter
          (fun p => toLowerStr p.message.displayName != lower)
      messages :=
        s.messages.filter (fun m => toLowerStr m.displayName != lower) }

/-- The external events that drive the pipeline, paired with the wall-clock
time at which each occurs. -/
inductive Event
  | recv (m : ChatMessage)
  | fire (tid : Nat)
  | deleteMsg (msgId : String)
  | banUser (username : String)
deriving DecidableEq

def step (cfg : ChatConfig) (delay : Nat) (s : ChatState)
    (et : Event × Nat) : ChatState :=
  match et with
  | (Event.recv m, t) => handleNewMessage cfg delay s m t
  | (Event.fire tid, t) => fireTimer cfg s tid t
  | (Event.deleteMsg msgId, _) => removeMessageByMsgId s msgId
  | (Event.banUser u, _) => removeMessagesByUser s u

def run (cfg : ChatConfig) (delay : Nat) (s : ChatState)
    (evs : List (Event × Nat)) : ChatState :=
  evs.foldl (step cfg delay) s

/-! ### Kick connector (src/services/KickChat.ts) -/

/-- A Pusher frame the Kick connector sends: the `event` string and the two
possible fields of its `data` object (`data:{}` has neither). -/
structure KickPayload where
  event : String
  auth : Option String
  channel : Option String
deriving DecidableEq

/-- The two stages of `KickChatService.connect`: the HTTP chatroom-id
lookup (`getChannelInfo`) and the socket stage (`connectToPusher`). -/
inductive KickStep
  | fetchChannelInfo
  | openSocket
deriving DecidableEq

/-- KickChat.ts: the 5000 ms constant in the `onclose` handler. -/
def RECONNECT_DELAY_MS : Nat := 5000

/-- KickChat.ts `startHeartbeat`: the 30000 ms interval. -/
def HEARTBEAT_INTERVAL_MS : Nat := 30000

/-- The connector's state: `steps` is instrumentation logging which connect
stages have run; `reconnectDelayMs` is the delay of the scheduled
reconnect timer, when one is pending. -/
structure KickState where
  connected : Bool
  chatroomId : Option Nat
  socketOpen : Bool
  reconnectDelayMs : Option Nat
  heartbeatEveryMs : Option Nat
  sent : List KickPayload
  steps : List KickStep
deriving DecidableEq

def initKick : KickState :=
  { connected := false, chatroomId := none, socketOpen := false
    reconnectDelayMs := none, heartbeatEveryMs := none, sent := []
    steps := [] }

/-- KickChat.ts `connectToPusher`: bail out when no chatroom id is cached,
otherwise open the pub/sub socket. -/
def connectToPusher (s : KickState) : KickState :=
  match s.chatroomId with
  | none => s
  | some _ => { s with steps := s.steps ++ [KickStep.openSocket] }

/-- KickChat.ts `connect`: resolve the channel to its chatroom id (the
argument carries the HTTP lookup's result, `none` on failure, swallowed),
then run `connectToPusher`. -/
def connect (s : KickState) (apiChatroomId : Option Nat) : KickState :=
  match apiChatroomId with
  | none => s
  | some cid =>
    connectToPusher
      { s with chatroomId := some cid
               steps := s.steps ++ [KickStep.fetchChannelInfo] }

/-- The socket's `onopen` handler: mark connected and start the
heartbeat interval. -/
def onSocketOpen (s : KickState) : KickState :=
  { s with connected := true, socketOpen := true
           heartbeatEveryMs := some HEARTBEAT_INTERVAL_MS }

/-- The socket's `onclose` handler: mark disconnected and schedule one
reconnect (`connectToPusher`) after 5000 ms. -/
def onSocketClose (s : KickState) : KickState :=
  { s with connected := false, socketOpen := false
           reconnectDelayMs := some RECONNECT_DELAY_MS }

/-- The reconnect timer elapsing: its callback runs `connectToPusher`. -/
def fireReconnect (s : KickState) : KickState :=
  connectToPusher { s with reconnectDelayMs := none }

/-- JS string interpolation of `this.chatroomId` (a number or null). -/
def chatroomIdText : Option Nat → String
  | some cid => toString cid
  | none => "null"

/-- The subscribe frame the code builds for chatroom `cid`. -/
def subscribePayload (cid : Nat) : KickPayload :=
  { event := "pusher:subscribe", auth := some ""
    channel := some ("chatrooms." ++ toString cid ++ ".v2") }

/-- The heartbeat frame the code sends. -/
def pingPayload : KickPayload :=
  { event := "pusher:ping", auth := none, channel := none }

/-- The `onmessage` branch for the connection-established event: send the
subscribe frame naming the cached chatroom id. -/
def onConnectionEstablished (s : KickState) : KickState :=
  { s with
      sent := s.sent ++
        [{ event := "pusher:subscribe", auth := some ""
           channel :=
             some ("chatrooms." ++ chatroomIdText s.chatroomId ++ ".v2") }] }

/-- One tick of the heartbeat interval: send a ping only while the socket
is in the OPEN ready state. -/
def heartbeatTick (s : KickState) : KickState :=
  if s.socketOpen then { s with sent := s.sent ++ [pingPayload] } else s

/-! ### Twitch badge resolution (src/services/AuthService.ts) -/

/-- One version entry of a Twitch Helix badge set. -/
structure TwitchBadgeVersion where
  id : String
  image_url_1x : String
  image_url_2x : String
  title : String
deriving DecidableEq

/-- A badge catalog: set id to version id to version data, as the service
stores the Helix responses (nested `Map`s). -/
def Catalog : Type := List (String × List (String × TwitchBadgeVersion))

/-- JS `Map.get` on a catalog. -/
def catGet (cat : Catalog) (k : String) :
    Option (List (String × TwitchBadgeVersion)) :=
  (cat.find? (fun e => e.1 == k)).map (fun e => e.2)

/-- JS `Map.get` on a version map. -/
def verGet (vs : List (String × TwitchBadgeVersion)) (k : String) :
    Option TwitchBadgeVersion :=
  (vs.find? (fun e => e.1 == k)).map (fun e => e.2)

/-- JS `a || b` on strings: the first operand unless it is falsy. -/
def jsOr (a b : String) : String := if a = "" then b else a

def isHexDigit (c : Char) : Bool :=
  c.isDigit || ('a' ≤ c && c ≤ 'f') || ('A' ≤ c && c ≤ 'F')

/-- The regex test in `getBadgeUrl`: eight, four, four, four and twelve
case-insensitive hex digits separated by dashes. -/
def isSubscriberUuid (v : String) : Bool :=
  v.data.length == 36 &&
    v.data.enum.all (fun ic =>
      if ic.1 == 8 || ic.1 == 13 || ic.1 == 18 || ic.1 == 23 then
        ic.2 == '-'
      else isHexDigit ic.2)

/-- The hardcoded fallback table `badgeUuids` in `getBadgeUrl`. -/
def badgeUuids : List (String × String) :=
  [("moderator", "3267646d-33f0-4b17-b3df-f923a41db1d0"),
   ("subscriber", "5d9f2208-5dd8-11e7-8513-2ff4adfae661"),
   ("broadcaster", "5527c58c-fb7d-422d-b31b-5fbe9c224b8d"),
   ("vip", "b817aba4-fad8-49e2-b88a-7cc744dfa6ec"),
   ("partner", "d12a2e27-16f6-41d0-ab77-b780518f00a3"),
   ("premium", "bbbe0f0f-e328-4877-a9a5-dfa608cabf6b"),
   ("bits", "73b5c3fb-24f9-4a82-a852-2f5d2d94d635")]

/-- AuthService.ts `getBadgeUrl`: channel catalog, then global catalog,
then the subscriber-UUID rule, then the hardcoded table, else empty. -/
def getBadgeUrl (channelBadges globalBadges : Catalog)
    (type version : String) : String :=
  match (catGet channelBadges type).bind (fun vs => verGet vs version) with
  | some bv => jsOr bv.image_url_2x bv.image_url_1x
  | none =>
    match (catGet globalBadges type).bind (fun vs => verGet vs version) with
    | some bv => jsOr bv.image_url_2x bv.image_url_1x
    | none =>
      if type == "subscriber" && version != "" &&
          isSubscriberUuid version then
        "https://static-cdn.jtvnw.net/badges/v1/" ++ version ++ "/2"
      else
        match (badgeUuids.find? (fun e => e.1 == type)).map
            (fun e => e.2) with
        | some uuid =>
          "https://static-cdn.jtvnw.net/badges/v1/" ++ uuid ++ "/" ++
            version
        | none => ""

/-- Modelled from the claim's wording, for comparison: a three-tier lookup
(channel catalog, global catalog, hardcoded table) with no
subscriber-UUID rule. -/
def getBadgeUrlClaim (channelBadges globalBadges : Catalog)
    (type version : String) : String :=
  match (catGet channelBadges type).bind (fun vs => verGet vs version) with
  | some bv => jsOr bv.image_url_2x bv.image_url_1x
  | none =>
    match (catGet globalBadges type).bind (fun vs => verGet vs version) with
    | some bv => jsOr bv.image_url_2x bv.image_url_1x
    | none =>
      match (badgeUuids.find? (fun e => e.1 == type)).map
          (fun e => e.2) with
      | some uuid =>
        "https://static-cdn.jtvnw.net/badges/v1/" ++ uuid ++ "/" ++
          version
      | none => ""

/-- AuthService.ts `getBadgeDescription`: the static description table. -/
def getBadgeDescription (type : String) : String :=
  let descriptions : List (String × String) :=
    [("moderator", "Moderator"), ("vip", "VIP"),
     ("subscriber", "Subscriber"), ("partner", "Verified"),
     ("premium", "Premium"), ("bits", "Bits"),
     ("bits-leader", "Bits Leader"), ("sub-gifter", "Sub Gifter"),
     ("sub-gift-leader", "Sub Gift Leader"), ("founder", "Founder"),
     ("hype-train", "Hype Train"), ("predictions", "Predictions"),
     ("no-audio", "No Audio"), ("no-video", "No Video"),
     ("no-passthrough", "No Passthrough"), ("turbo", "Turbo"),
     ("prime", "Prime"), ("game-developer", "Game Developer"),
     ("admin", "Admin"), ("staff", "Staff"),
     ("broadcaster", "Broadcaster")]
  match (descriptions.find? (fun e => e.1 == type)).map (fun e => e.2) with
  | some d => d
  | none => type

/-- The description computed in `parseBadges`: channel catalog title if the
channel has the set, else global catalog title, else the static table. -/
def badgeDescriptionFor (channelBadges globalBadges : Catalog)
    (type version : String) : String :=
  let d := getBadgeDescription type
  match catGet channelBadges type with
  | some vs =>
    match verGet vs version with
    | some bv => if bv.title != "" then bv.title else d
    | none => d
  | none =>
    match catGet globalBadges type with
    | some vs =>
      match verGet vs version with
      | some bv => if bv.title != "" then bv.title else d
      | none => d
    | none => d

/-- AuthService.ts `parseBadges`: map each `(type, version)` tag pair to a
badge record and keep only those with a truthy URL. -/
def parseBadges (channelBadges globalBadges : Catalog)
    (entries : List (String × String)) : List Badge :=
  (entries.map (fun tv =>
    Badge.mk tv.1 tv.2 (getBadgeUrl channelBadges globalBadges tv.1 tv.2)
      (badgeDescriptionFor channelBadges globalBadges tv.1 tv.2))).filter
    (fun b => b.url != "")

/-! ### MessageRow hide timer (src/components/MessageRow.tsx) -/

/-- The `useEffect` of `MessageRow`: schedule `onRemove(message.id)` after
`hideAfter` seconds unless `hideAfter` is the sentinel 180. -/
def messageRowHideTimer (hideAfter : Nat) (messageId : String) :
    Option (Nat × String) :=
  if hideAfter ≠ 180 then some (hideAfter * 1000, messageId) else none

/-! ### Observations used by the trace theorems -/

/-- Every message held anywhere in the pipeline (history, live timers,
pending table) satisfies `q`. -/
def MsgSafe (q : ChatMessage → Bool) (st : ChatState) : Prop :=
  (∀ m ∈ st.messages, q m = true) ∧
    (∀ tmr ∈ st.timers, q tmr.message = true) ∧
      (∀ p ∈ st.pendingTimeouts, q p.message = true)

instance (q : ChatMessage → Bool) (st : ChatState) :
    Decidable (MsgSafe q st) :=
  inferInstanceAs (Decidable ((∀ m ∈ st.messages, q m = true) ∧
    ((∀ tmr ∈ st.timers, q tmr.message = true) ∧
      (∀ p ∈ st.pendingTimeouts, q p.message = true))))

/-- `q` holds for the message of a receive event; other events carry no
message. -/
def eventMsgOk (q : ChatMessage → Bool) : Event → Bool
  | Event.recv m => q m
  | _ => true

/-- Every receive event in the trace carries a message satisfying `q`. -/
def EventsSafe (q : ChatMessage → Bool) (evs : List (Event × Nat)) : Prop :=
  ∀ et ∈ evs, eventMsgOk q et.1 = true

instance (q : ChatMessage → Bool) (evs : List (Event × Nat)) :
    Decidable (EventsSafe q evs) :=
  inferInstanceAs (Decidable (∀ et ∈ evs, eventMsgOk q et.1 = true))

/-! ### Concrete inputs for the witnesses and counterexamples -/

def mMod : ChatMessage :=
  ⟨"1", "10", "Alice", "hello", [⟨"moderator", "1", "u", "Moderator"⟩], 0,
    "twitch", "m1"⟩

def mPleb : ChatMessage := ⟨"2", "11", "Bob", "hi", [], 0, "twitch", "p1"⟩

def mNoId : ChatMessage := ⟨"3", "12", "Mallory", "yo", [], 0, "kick", ""⟩

def mSuper : ChatMessage :=
  ⟨"4", "13", "Cara", "hey", [⟨"super-admin", "1", "u", "Super Admin"⟩], 0,
    "kick", "sa1"⟩

/-- `mPleb` with the timestamp one millisecond later. -/
def mPlebLater : ChatMessage :=
  ⟨"2", "11", "Bob", "hi", [], 1, "twitch", ""⟩

/-- `mPleb` with no platform message id and timestamp 1000. -/
def mPlebT1000 : ChatMessage :=
  ⟨"2", "11", "Bob", "hi", [], 1000, "twitch", ""⟩

/-- `mPleb` with no platform message id and timestamp 1001. -/
def mPlebT1001 : ChatMessage :=
  ⟨"2", "11", "Bob", "hi", [], 1001, "twitch", ""⟩

/-- The privileged role set exactly as the claim lists it (hyphen
spellings), for comparison with the source's `PRIVILEGED_BADGES`. -/
def claimedRoleSet : List String :=
  ["lead-moderator", "moderator", "vip", "broadcaster", "owner", "og",
   "staff", "super-admin"]

/-- The privilege test as the claim words it. -/
def claimPrivileged (badges : List Badge) : Bool :=
  badges.any (fun b => claimedRoleSet.contains (toLowerStr b.type))

/-- The subscribe frame exactly as the claim words it. -/
def claimSubscribePayload (cid : Nat) : KickPayload :=
  { event := "subscribe", auth := some ""
    channel := some ("chatrooms." ++ toString cid ++ ".v2") }

/-- The heartbeat frame exactly as the claim words it. -/
def claimPingPayload : KickPayload :=
  { event := "ping", auth := none, channel := none }

/-- The state after `mPleb` (msgId "p1") is first scheduled: timer 0 is
live and the pending table maps "p1" to it. -/
def sFirst : ChatState :=
  handleNewMessage DEFAULT_CONFIG DEFAULT_DELAY_MS initState mPleb 0

/-- `sFirst` after the dedup window has rolled past "p1":
`cleanupProcessedIds` keeps only the most recent 500 keys once 1000 are
exceeded, so a key older than the last 500 is evicted from the seen set
while its timer is still live.  The eviction itself is exhibited in the
counterexample's first conjunct; here the seen set is shown after the
roll-over, without the 500 unrelated younger keys that played no further
part. -/
def sEvicted : ChatState := { sFirst with processed := [] }

/-- The replay of msgId "p1" against `sEvicted`: dedup no longer blocks
it, a second timer is scheduled, and the `Map.set` table write replaces
the entry for "p1" — timer 0 is now orphaned (live, but unreachable from
the table). -/
def sReplayed : ChatState :=
  handleNewMessage DEFAULT_CONFIG DEFAULT_DELAY_MS sEvicted mPleb 1

/-- A UUID-shaped subscriber badge version absent from both catalogs and
distinct from every entry of the hardcoded table. -/
def uuidEx : String := "aaaaaaaa-bbbb-cccc-dddd-eeeeeeeeeeee"

/-- A channel-catalog entry for the moderator badge. -/
def bvModCh : TwitchBadgeVersion :=
  ⟨"1", "https://chan/1x", "https://chan/2x", "Channel Mod"⟩

/-- A global-catalog entry for the moderator badge. -/
def bvModGl : TwitchBadgeVersion :=
  ⟨"1", "https://glob/1x", "https://glob/2x", "Moderator"⟩

def chEx : Catalog := [("moderator", [("1", bvModCh)])]

def glEx : Catalog := [("moderator", [("1", bvModGl)])]

/-! ### Helper lemmas -/

lemma mem_sliceLast {x : ChatMessage} {n : Nat} {l : List ChatMessage}
    (h : x ∈ sliceLast n l) : x ∈ l := by
  unfold sliceLast at h
  split at h
  · exact h
  · exact List.drop_subset _ _ h

lemma mem_pendingSet {x p : PendingRef} {l : List PendingRef}
    (h : x ∈ pendingSet l p) : x ∈ l ∨ x = p := by
  unfold pendingSet at h
  split at h
  · rcases List.mem_map.mp h with ⟨q, hq, hqx⟩
    by_cases hk : (q.key == p.key) = true
    · right
      rw [if_pos hk] at hqx
      exact hqx.symm
    · left
      rw [if_neg hk] at hqx
      exact hqx ▸ hq
  · rcases List.mem_append.mp h with h | h
    · exact Or.inl h
    · right
      simpa using h

lemma mem_drop_append_last {α : Type} (l : List α) (k : α) (d : Nat)
    (h : d ≤ l.length) : k ∈ (l ++ [k]).drop d := by
  rw [List.drop_append_of_le_length h]
  exact List.mem_append_right _ (by simp)

lemma contains_cleanup_append (l : List String) (k : String) :
    (cleanupProcessedIds (l ++ [k])).contains k = true := by
  unfold cleanupProcessedIds
  split
  · next hlen =>
    have hle : (l ++ [k]).length - PROCESSED_MESSAGES_KEEP ≤ l.length := by
      simp only [List.length_append, List.length_singleton,
        PROCESSED_MESSAGES_KEEP]
      omega
    exact List.elem_iff.mpr (mem_drop_append_last l k _ hle)
  · exact List.elem_iff.mpr (List.mem_append_right _ (by simp))

lemma pendingGet_pendingSet (l : List PendingRef) (p : PendingRef) :
    pendingGet (pendingSet l p) p.key = some p := by
  induction l with
  | nil =>
    simp [pendingSet, pendingGet, List.find?]
  | cons a l ih =>
    by_cases h : (a.key == p.key) = true
    · have hfind :
          List.find? (fun q => q.key == p.key) (a :: l) = some a :=
        List.find?_cons_of_pos _ h
      unfold pendingSet
      rw [hfind]
      simp only [Option.isSome_some, if_true]
      unfold pendingGet
      simp [List.find?, h]
    · have hfind :
          List.find? (fun q => q.key == p.key) (a :: l) =
            List.find? (fun q => q.key == p.key) l :=
        List.find?_cons_of_neg _ (by simpa using h)
      unfold pendingSet at ih ⊢
      rw [hfind]
      by_cases hs : (List.find? (fun q => q.key == p.key) l).isSome = true
      · rw [if_pos hs] at ih
        rw [if_pos hs]
        unfold pendingGet at ih ⊢
        simpa [List.find?, if_neg h, h] using ih
      · rw [if_neg hs] at ih
        rw [if_neg hs]
        unfold pendingGet at ih ⊢
        simpa [List.find?, if_neg h, h] using ih

lemma pendingGet_pendingErase (l : List PendingRef) (k : String) :
    pendingGet (pendingErase l k) k = none := by
  unfold pendingGet pendingErase
  rw [List.find?_eq_none]
  intro x hx
  have hk := (List.mem_filter.mp hx).2
  simpa [bne] using hk

lemma processed_addMessage (cfg : ChatConfig) (s : ChatState)
    (m : ChatMessage) (now : Nat) :
    (addMessage cfg s m now).processed = s.processed := rfl

lemma timers_addMessage (cfg : ChatConfig) (s : ChatState) (m : ChatMessage)
    (now : Nat) : (addMessage cfg s m now).timers = s.timers := rfl

lemma commitLog_addMessage (cfg : ChatConfig) (s : ChatState)
    (m : ChatMessage) (now : Nat) :
    (addMessage cfg s m now).commitLog = s.commitLog ++ [(m, now)] := rfl

lemma messages_addMessage (cfg : ChatConfig) (s : ChatState)
    (m : ChatMessage) (now : Nat) :
    (addMessage cfg s m now).messages =
      if (s.messages ++ [m]).length > cfg.messagesLimit then
        sliceLast cfg.messagesLimit (s.messages ++ [m])
      else s.messages ++ [m] := rfl

lemma pendingTimeouts_addMessage (cfg : ChatConfig) (s : ChatState)
    (m : ChatMessage) (now : Nat) :
    (addMessage cfg s m now).pendingTimeouts =
      if m.msgId != "" then pendingErase s.pendingTimeouts m.msgId
      else s.pendingTimeouts := rfl

lemma handleNewMessage_drop (cfg : ChatConfig) (delay : Nat)
    {s : ChatState} {m : ChatMessage} {t : Nat}
    (h : s.processed.contains (getMessageKey m) = true) :
    handleNewMessage cfg delay s m t = s := by
  unfold handleNewMessage
  simp [h]
  intro hn
  exact absurd (List.elem_iff.mp h) hn

lemma processed_handleNewMessage (cfg : ChatConfig) (delay : Nat)
    {s : ChatState} {m : ChatMessage} {t : Nat}
    (h : s.processed.contains (getMessageKey m) = false) :
    (handleNewMessage cfg delay s m t).processed =
      cleanupProcessedIds (s.processed ++ [getMessageKey m]) := by
  unfold handleNewMessage
  simp only [h, Bool.false_eq_true, if_false]
  split_ifs <;> rfl

lemma contains_processed_handleNewMessage (cfg : ChatConfig) (delay : Nat)
    (s : ChatState) (m : ChatMessage) (t : Nat) :
    ((handleNewMessage cfg delay s m t).processed).contains
      (getMessageKey m) = true := by
  by_cases hc : s.processed.contains (getMessageKey m) = true
  · rw [handleNewMessage_drop cfg delay hc]
    exact hc
  · rw [processed_handleNewMessage cfg delay
      (Bool.not_eq_true _ ▸ hc : s.processed.contains (getMessageKey m) = false)]
    exact contains_cleanup_append _ _

lemma msgSafe_addMessage (cfg : ChatConfig) {q : ChatMessage → Bool}
    {s : ChatState} {m : ChatMessage} {now : Nat} (hs : MsgSafe q s)
    (hm : q m = true) : MsgSafe q (addMessage cfg s m now) := by
  obtain ⟨h1, h2, h3⟩ := hs
  refine ⟨?_, ?_, ?_⟩
  · intro x hx
    rw [messages_addMessage] at hx
    have hx' : x ∈ s.messages ++ [m] := by
      split at hx
      · exact mem_sliceLast hx
      · exact hx
    rcases List.mem_append.mp hx' with h | h
    · exact h1 x h
    · have hx2 : x = m := by simpa using h
      rw [hx2]
      exact hm
  · intro tmr htmr
    rw [timers_addMessage] at htmr
    exact h2 tmr htmr
  · intro p hp
    rw [pendingTimeouts_addMessage] at hp
    split at hp
    · exact h3 p (List.mem_of_mem_filter hp)
    · exact h3 p hp

lemma msgSafe_handleNewMessage (cfg : ChatConfig) (delay : Nat)
    {q : ChatMessage → Bool} {s : ChatState} {m : ChatMessage} {t : Nat}
    (hs : MsgSafe q s) (hm : q m = true) :
    MsgSafe q (handleNewMessage cfg delay s m t) := by
  obtain ⟨h1, h2, h3⟩ := hs
  by_cases hc : s.processed.contains (getMessageKey m) = true
  · rw [handleNewMessage_drop cfg delay hc]
    exact ⟨h1, h2, h3⟩
  · unfold handleNewMessage
    rw [if_neg (by simpa using hc)]
    split_ifs with hhide hpriv hkey
    · exact ⟨h1, h2, h3⟩
    · exact msgSafe_addMessage cfg ⟨h1, h2, h3⟩ hm
    · refine ⟨h1, ?_, ?_⟩
      · intro tmr htmr
        rcases List.mem_append.mp htmr with h | h
        · exact h2 tmr h
        · have : tmr = ⟨s.nextTid, m, t + delay⟩ := by simpa using h
          rw [this]
          exact hm
      · intro p hp
        rcases mem_pendingSet hp with h | h
        · exact h3 p h
        · rw [h]
          exact hm
    · refine ⟨h1, ?_, h3⟩
      intro tmr htmr
      rcases List.mem_append.mp htmr with h | h
      · exact h2 tmr h
      · have : tmr = ⟨s.nextTid, m, t + delay⟩ := by simpa using h
        rw [this]
        exact hm

lemma msgSafe_fireTimer (cfg : ChatConfig) {q : ChatMessage → Bool}
    {s : ChatState} {tid now : Nat} (hs : MsgSafe q s) :
    MsgSafe q (fireTimer cfg s tid now) := by
  obtain ⟨h1, h2, h3⟩ := hs
  unfold fireTimer
  cases hfind : s.timers.find? (fun tmr => tmr.tid == tid) with
  | none => exact ⟨h1, h2, h3⟩
  | some tmr =>
    show MsgSafe q (if tmr.fireAt ≤ now then
      addMessage cfg
        { s with timers := s.timers.filter (fun u => u.tid != tid) }
        tmr.message now
      else s)
    split_ifs with hle
    · refine msgSafe_addMessage cfg ⟨h1, ?_, h3⟩
        (h2 tmr (List.mem_of_find?_eq_some hfind))
      intro u hu
      exact h2 u (List.mem_of_mem_filter hu)
    · exact ⟨h1, h2, h3⟩

lemma msgSafe_removeMessageByMsgId {q : ChatMessage → Bool} {s : ChatState}
    {x : String} (hs : MsgSafe q s) :
    MsgSafe q (removeMessageByMsgId s x) := by
  obtain ⟨h1, h2, h3⟩ := hs
  unfold removeMessageByMsgId
  cases hg : pendingGet s.pendingTimeouts x with
  | none =>
    simp only
    exact ⟨fun m hm => h1 m (List.mem_of_mem_filter hm), h2, h3⟩
  | some p =>
    simp only
    refine ⟨fun m hm => h1 m (List.mem_of_mem_filter hm),
      fun u hu => h2 u (List.mem_of_mem_filter hu), fun r hr => ?_⟩
    exact h3 r (List.mem_of_mem_filter hr)

lemma msgSafe_removeMessagesByUser {q : ChatMessage → Bool} {s : ChatState}
    {u : String} (hs : MsgSafe q s) :
    MsgSafe q (removeMessagesByUser s u) := by
  obtain ⟨h1, h2, h3⟩ := hs
  unfold removeMessagesByUser
  exact ⟨fun m hm => h1 m (List.mem_of_mem_filter hm),
    fun t ht => h2 t (List.mem_of_mem_filter ht),
    fun p hp => h3 p (List.mem_of_mem_filter hp)⟩

lemma msgSafe_step (cfg : ChatConfig) (delay : Nat) {q : ChatMessage → Bool}
    {s : ChatState} {et : Event × Nat} (hs : MsgSafe q s)
    (he : eventMsgOk q et.1 = true) : MsgSafe q (step cfg delay s et) := by
  obtain ⟨e, t⟩ := et
  cases e with
  | recv m => exact msgSafe_handleNewMessage cfg delay hs he
  | fire tid => exact msgSafe_fireTimer cfg hs
  | deleteMsg x => exact msgSafe_removeMessageByMsgId hs
  | banUser v => exact msgSafe_removeMessagesByUser hs

lemma msgSafe_run (cfg : ChatConfig) (delay : Nat) {q : ChatMessage → Bool} :
    ∀ (evs : List (Event × Nat)) (s : ChatState), MsgSafe q s →
      EventsSafe q evs → MsgSafe q (run cfg delay s evs)
  | [], _, hs, _ => hs
  | et :: evs, s, hs, hevs =>
    msgSafe_run cfg delay evs (step cfg delay s et)
      (msgSafe_step cfg delay hs (hevs et (List.mem_cons_self _ _)))
      (fun e he => hevs e (List.mem_cons_of_mem _ he))

lemma pendingGet_after_delete (s : ChatState) (x : String) :
    pendingGet (removeMessageByMsgId s x).pendingTimeouts x = none := by
  unfold removeMessageByMsgId
  cases hg : pendingGet s.pendingTimeouts x with
  | none => simpa using hg
  | some p => exact pendingGet_pendingErase _ _

lemma msgSafe_after_delete {s : ChatState} {x : String}
    (wf1 : ∀ p ∈ s.pendingTimeouts, p.message.msgId = p.key)
    (wf2 : ∀ tmr ∈ s.timers, tmr.message.msgId = x →
      ∃ p, pendingGet s.pendingTimeouts x = some p ∧ tmr.tid = p.tid) :
    MsgSafe (fun m => m.msgId != x) (removeMessageByMsgId s x) := by
  unfold removeMessageByMsgId
  cases hg : pendingGet s.pendingTimeouts x with
  | none =>
    refine ⟨?_, ?_, ?_⟩
    · intro m hm
      exact (List.mem_filter.mp hm).2
    · intro tmr htmr
      simp only at htmr
      by_contra hne
      have hX : tmr.message.msgId = x := by simpa [bne] using hne
      obtain ⟨p, hp, _⟩ := wf2 tmr htmr hX
      rw [hg] at hp
      exact Option.noConfusion hp
    · intro p hp
      simp only at hp
      by_contra hne
      have hX : p.message.msgId = x := by simpa [bne] using hne
      have hkey : p.key = x := (wf1 p hp).symm.trans hX
      have : pendingGet s.pendingTimeouts x ≠ none := by
        unfold pendingGet
        intro hnone
        rw [List.find?_eq_none] at hnone
        exact hnone p hp (by simp [hkey])
      exact this hg
  | some p0 =>
    refine ⟨?_, ?_, ?_⟩
    · intro m hm
      exact (List.mem_filter.mp hm).2
    · intro tmr htmr
      simp only at htmr
      have htm := List.mem_filter.mp htmr
      by_contra hne
      have hX : tmr.message.msgId = x := by simpa [bne] using hne
      obtain ⟨p, hp, htid⟩ := wf2 tmr htm.1 hX
      rw [hg] at hp
      injection hp with hp
      have htid2 : (tmr.tid != p0.tid) = true := htm.2
      rw [hp] at htid2
      simp [htid, bne] at htid2
    · intro p hp
      simp only at hp
      have hp' := List.mem_filter.mp hp
      have hkey : (p.key != x) = true := hp'.2
      have hmk : p.message.msgId = p.key := wf1 p hp'.1
      show (p.message.msgId != x) = true
      rw [hmk]
      exact hkey

lemma cancelled_timer_banned {s : ChatState} {u : String} {p0 : PendingRef}
    (hp0 : p0 ∈ s.pendingTimeouts)
    (hmatch : toLowerStr p0.message.displayName = toLowerStr u) :
    ∀ tmr ∈ (removeMessagesByUser s u).timers, tmr.tid ≠ p0.tid := by
  intro tmr htmr heq
  unfold removeMessagesByUser at htmr
  simp only at htmr
  have htm := List.mem_filter.mp htmr
  have hany : (s.pendingTimeouts.filter
      (fun p => toLowerStr p.message.displayName == toLowerStr u)).any
      (fun p => p.tid == tmr.tid) = true := by
    apply List.any_eq_true.mpr
    exact ⟨p0, List.mem_filter.mpr ⟨hp0, by simp [hmatch]⟩, by simp [heq]⟩
  have := htm.2
  simp [hany] at this

lemma msgSafe_after_ban {s : ChatState} {u : String}
    (wf : ∀ tmr ∈ s.timers,
      toLowerStr tmr.message.displayName = toLowerStr u →
      ∃ p ∈ s.pendingTimeouts, p.tid = tmr.tid ∧
        toLowerStr p.message.displayName = toLowerStr u) :
    MsgSafe (fun m => toLowerStr m.displayName != toLowerStr u)
      (removeMessagesByUser s u) := by
  unfold removeMessagesByUser
  refine ⟨?_, ?_, ?_⟩
  · intro m hm
    simp only at hm
    exact (List.mem_filter.mp hm).2
  · intro tmr htmr
    simp only at htmr
    have htm := List.mem_filter.mp htmr
    by_contra hne
    have hX : toLowerStr tmr.message.displayName = toLowerStr u := by
      simpa [bne] using hne
    obtain ⟨p, hp, htid, hpu⟩ := wf tmr htm.1 hX
    have hany : (s.pendingTimeouts.filter
        (fun p => toLowerStr p.message.displayName == toLowerStr u)).any
        (fun p => p.tid == tmr.tid) = true := by
      apply List.any_eq_true.mpr
      exact ⟨p, List.mem_filter.mpr ⟨hp, by simp [hpu]⟩, by simp [htid]⟩
    have := htm.2
    simp [hany] at this
  · intro p hp
    simp only at hp
    exact (List.mem_filter.mp hp).2

lemma messages_handleNewMessage_nonpriv (cfg : ChatConfig) (delay : Nat)
    (s : ChatState) (m : ChatMessage) (t : Nat)
    (hpriv : hasPrivilegedBadge m.badges = false) :
    (handleNewMessage cfg delay s m t).messages = s.messages := by
  by_cases hc : s.processed.contains (getMessageKey m) = true
  · rw [handleNewMessage_drop cfg delay hc]
  · unfold handleNewMessage
    rw [if_neg (by simpa using hc)]
    split_ifs with hhide hpriv2 hmsg
    · rfl
    · rw [hpriv] at hpriv2
      exact absurd hpriv2 (by simp)
    · rfl
    · rfl

lemma length_messages_addMessage (cfg : ChatConfig) {s : ChatState}
    (m : ChatMessage) (now : Nat) (hcap : 0 < cfg.messagesLimit)
    (hs : s.messages.length ≤ cfg.messagesLimit) :
    (addMessage cfg s m now).messages.length ≤ cfg.messagesLimit := by
  rw [messages_addMessage]
  split
  · next hgt =>
    unfold sliceLast
    rw [if_neg (Nat.pos_iff_ne_zero.mp hcap)]
    rw [List.length_drop]
    simp only [List.length_append, List.length_singleton] at hgt ⊢
    omega
  · next hle => omega

lemma length_messages_step (cfg : ChatConfig) (delay : Nat) {s : ChatState}
    (et : Event × Nat) (hcap : 0 < cfg.messagesLimit)
    (hs : s.messages.length ≤ cfg.messagesLimit) :
    (step cfg delay s et).messages.length ≤ cfg.messagesLimit := by
  obtain ⟨e, t⟩ := et
  cases e with
  | recv m =>
    show (handleNewMessage cfg delay s m t).messages.length ≤ _
    by_cases hc : s.processed.contains (getMessageKey m) = true
    · rw [handleNewMessage_drop cfg delay hc]
      exact hs
    · unfold handleNewMessage
      rw [if_neg (by simpa using hc)]
      split_ifs with hhide hpriv hmsg
      · exact hs
      · exact length_messages_addMessage cfg m t hcap hs
      · exact hs
      · exact hs
  | fire tid =>
    show (fireTimer cfg s tid t).messages.length ≤ _
    unfold fireTimer
    cases hfind : s.timers.find? (fun tmr => tmr.tid == tid) with
    | none => exact hs
    | some tmr =>
      show (if tmr.fireAt ≤ t then
        addMessage cfg
          { s with timers := s.timers.filter (fun u => u.tid != tid) }
          tmr.message t
        else s).messages.length ≤ _
      split_ifs with hle
      · exact length_messages_addMessage cfg tmr.message t hcap hs
      · exact hs
  | deleteMsg x =>
    show (removeMessageByMsgId s x).messages.length ≤ _
    unfold removeMessageByMsgId
    cases pendingGet s.pendingTimeouts x with
    | none => exact le_trans (List.length_filter_le _ _) hs
    | some p => exact le_trans (List.length_filter_le _ _) hs
  | banUser v =>
    show (removeMessagesByUser s v).messages.length ≤ _
    unfold removeMessagesByUser
    exact le_trans (List.length_filter_le _ _) hs

lemma length_messages_run (cfg : ChatConfig) (delay : Nat)
    (hcap : 0 < cfg.messagesLimit) :
    ∀ (evs : List (Event × Nat)) (s : ChatState),
      s.messages.length ≤ cfg.messagesLimit →
      (run cfg delay s evs).messages.length ≤ cfg.messagesLimit
  | [], _, hs => hs
  | et :: evs, s, hs =>
    length_messages_run cfg delay hcap evs (step cfg delay s et)
      (length_messages_step cfg delay et hcap hs)

lemma addMessage_drops_oldest (cfg : ChatConfig) (s : ChatState)
    (m : ChatMessage) (now : Nat) :
    ∃ k, (addMessage cfg s m now).messages = (s.messages ++ [m]).drop k := by
  rw [messages_addMessage]
  split
  · unfold sliceLast
    split
    · exact ⟨0, rfl⟩
    · exact ⟨_, rfl⟩
  · exact ⟨0, rfl⟩

lemma self_mem_addMessage (cfg : ChatConfig) (s : ChatState)
    (m : ChatMessage) (now : Nat) : m ∈ (addMessage cfg s m now).messages := by
  rw [messages_addMessage]
  split
  · next hgt =>
    unfold sliceLast
    split
    · exact List.mem_append_right _ (by simp)
    · next hne =>
      apply mem_drop_append_last
      simp only [List.length_append, List.length_singleton] at hgt ⊢
      omega
  · exact List.mem_append_right _ (by simp)

lemma fireTimer_commitLog (cfg : ChatConfig) (s : ChatState)
    (tid now : Nat) :
    (fireTimer cfg s tid now).commitLog = s.commitLog ∨
    ∃ tmr ∈ s.timers, tmr.tid = tid ∧ tmr.fireAt ≤ now ∧
      (fireTimer cfg s tid now).commitLog =
        s.commitLog ++ [(tmr.message, now)] := by
  unfold fireTimer
  cases hfind : s.timers.find? (fun tmr => tmr.tid == tid) with
  | none => exact Or.inl rfl
  | some tmr =>
    by_cases hle : tmr.fireAt ≤ now
    · refine Or.inr ⟨tmr, List.mem_of_find?_eq_some hfind,
        by simpa using List.find?_some hfind, hle, ?_⟩
      show (if tmr.fireAt ≤ now then
        addMessage cfg
          { s with timers := s.timers.filter (fun u => u.tid != tid) }
          tmr.message now
        else s).commitLog = _
      rw [if_pos hle]
      rfl
    · refine Or.inl ?_
      show (if tmr.fireAt ≤ now then
        addMessage cfg
          { s with timers := s.timers.filter (fun u => u.tid != tid) }
          tmr.message now
        else s).commitLog = _
      rw [if_neg hle]

/-! ### Claim theorems -/

/-- C1 counterexample: the message `mSuper` carries a badge of type
"super-admin", which belongs to the role set exactly as the claim lists it
(hyphen spelling), yet the source's `PRIVILEGED_BADGES` check rejects it,
so the pipeline does not commit the message immediately — it schedules a
delayed timer instead, contradicting the claim's zero-delay commitment. -/
theorem privilegedBadge_claim_counterexample :
    claimPrivileged mSuper.badges = true ∧
    hasPrivilegedBadge mSuper.badges = false ∧
    (handleNewMessage DEFAULT_CONFIG DEFAULT_DELAY_MS initState mSuper
      0).messages = [] ∧
    (handleNewMessage DEFAULT_CONFIG DEFAULT_DELAY_MS initState mSuper
      0).commitLog = [] ∧
    (handleNewMessage DEFAULT_CONFIG DEFAULT_DELAY_MS initState mSuper
      0).timers = [⟨0, mSuper, DEFAULT_DELAY_MS⟩] := by
  decide

/-- C1 (amended): for an inbound message that passes deduplication and
filtering, if any badge type lower-cased is in the source's privileged set
(underscore spellings `lead_moderator`, `moderator`, `vip`, `broadcaster`,
`owner`, `og`, `staff`, `super_admin`), the message is committed at the
receive time itself with the timers untouched; otherwise history and the
commit log are unchanged and a timer scheduled at `t + delay` is created.
Moreover a timer can produce a commit only once its scheduled fire time
has been reached. -/
theorem privilegedBadge_commit_behavior (cfg : ChatConfig) (delay : Nat)
    (s : ChatState) (m : ChatMessage) (t : Nat)
    (hkey : s.processed.contains (getMessageKey m) = false)
    (hhide : shouldHideMessage m.text cfg.hideCommands cfg.ignoredUsers
      m.displayName = false) :
    (hasPrivilegedBadge m.badges = true →
      (handleNewMessage cfg delay s m t).commitLog =
        s.commitLog ++ [(m, t)] ∧
      m ∈ (handleNewMessage cfg delay s m t).messages ∧
      (handleNewMessage cfg delay s m t).timers = s.timers) ∧
    (hasPrivilegedBadge m.badges = false →
      (handleNewMessage cfg delay s m t).commitLog = s.commitLog ∧
      (handleNewMessage cfg delay s m t).messages = s.messages ∧
      Timer.mk s.nextTid m (t + delay) ∈
        (handleNewMessage cfg delay s m t).timers) ∧
    (∀ tid now, (fireTimer cfg s tid now).commitLog ≠ s.commitLog →
      ∃ tmr ∈ s.timers, tmr.tid = tid ∧ tmr.fireAt ≤ now ∧
        (fireTimer cfg s tid now).commitLog =
          s.commitLog ++ [(tmr.message, now)]) := by
  refine ⟨?_, ?_, ?_⟩
  · intro hpriv
    unfold handleNewMessage
    rw [if_neg (by simpa using hkey), if_neg (by simp [hhide]),
      if_pos (by simp [hpriv])]
    exact ⟨rfl, self_mem_addMessage _ _ _ _, rfl⟩
  · intro hpriv
    unfold handleNewMessage
    rw [if_neg (by simpa using hkey), if_neg (by simp [hhide]),
      if_neg (by simp [hpriv])]
    split_ifs with hmsg
    · exact ⟨rfl, rfl, List.mem_append_right _ (by simp)⟩
    · exact ⟨rfl, rfl, List.mem_append_right _ (by simp)⟩
  · intro tid now hne
    rcases fireTimer_commitLog cfg s tid now with h | h
    · exact absurd h hne
    · exact h

/-- C1 witness: the moderator message commits at its receive time while
the unprivileged message is only scheduled. -/
theorem privilegedBadge_commit_behavior_witness :
    (handleNewMessage DEFAULT_CONFIG DEFAULT_DELAY_MS initState mMod
      0).commitLog = initState.commitLog ++ [(mMod, 0)] ∧
    (handleNewMessage DEFAULT_CONFIG DEFAULT_DELAY_MS initState mPleb
      0).messages = initState.messages ∧
    Timer.mk initState.nextTid mPleb (0 + DEFAULT_DELAY_MS) ∈
      (handleNewMessage DEFAULT_CONFIG DEFAULT_DELAY_MS initState mPleb
        0).timers := by
  refine ⟨?_, ?_, ?_⟩
  · exact ((privilegedBadge_commit_behavior DEFAULT_CONFIG DEFAULT_DELAY_MS
      initState mMod 0 (by decide) (by decide)).1 (by decide)).1
  · exact ((privilegedBadge_commit_behavior DEFAULT_CONFIG DEFAULT_DELAY_MS
      initState mPleb 0 (by decide) (by decide)).2.1 (by decide)).2.1
  · exact ((privilegedBadge_commit_behavior DEFAULT_CONFIG DEFAULT_DELAY_MS
      initState mPleb 0 (by decide) (by decide)).2.1 (by decide)).2.2

/-- C2 counterexample: the claim fails on a reachable state.  First
conjunct: once the seen set exceeds 1000 keys, `cleanupProcessedIds`
evicts keys older than the most recent 500 — here "p1" is evicted — so a
replay of msgId "p1" can pass dedup while its first timer is still live.
In `sReplayed` that replay has happened: two timers carry "p1" but the
`Map.set` table write kept only the newer one (tid 1).  Deleting "p1"
while the message is pending cancels only the tracked timer and empties
history, yet the orphaned timer 0 still fires and the message with the
deleted msgId appears in history after the delete — contradicting "that
message never appears in history at any later time". -/
theorem deleteMsgId_claim_counterexample :
    (cleanupProcessedIds
      ("p1" :: (List.range 1001).map (fun n => toString n))).contains
        "p1" = false ∧
    sReplayed.timers =
      [⟨0, mPleb, DEFAULT_DELAY_MS⟩, ⟨1, mPleb, 1 + DEFAULT_DELAY_MS⟩] ∧
    pendingGet sReplayed.pendingTimeouts "p1" = some ⟨"p1", 1, mPleb⟩ ∧
    pendingGet (removeMessageByMsgId sReplayed "p1").pendingTimeouts
      "p1" = none ∧
    (removeMessageByMsgId sReplayed "p1").timers =
      [⟨0, mPleb, DEFAULT_DELAY_MS⟩] ∧
    (removeMessageByMsgId sReplayed "p1").messages = [] ∧
    (fireTimer DEFAULT_CONFIG (removeMessageByMsgId sReplayed "p1") 0
      DEFAULT_DELAY_MS).messages = [mPleb] := by
  set_option maxRecDepth 10000 in decide

/-- C2 (amended): deleting by `msgId` cancels the tracked pending entry
for that key and removes matching committed messages immediately, and —
provided every live timer carrying that `msgId` is the one registered in
the pending table (which fails exactly in the orphaned-replay state of
the counterexample) — along any further trace whose receive events never
carry that `msgId` again, no message with that `msgId` is ever present in
history, in a timer, or in the pending table.  The two well-formedness
hypotheses state this proviso: every pending entry is keyed by its own
message's `msgId`, and every live timer whose message has the deleted
`msgId` is the one registered in the pending table. -/
theorem deleteMsgId_permanent (cfg : ChatConfig) (delay : Nat)
    (s : ChatState) (x : String) (evs : List (Event × Nat))
    (wf1 : s.pendingTimeouts.all
      (fun p => p.message.msgId == p.key) = true)
    (wf2 : s.timers.all (fun tmr =>
      (tmr.message.msgId != x) ||
      (match pendingGet s.pendingTimeouts x with
       | some p => tmr.tid == p.tid
       | none => false)) = true)
    (hevs : EventsSafe (fun m => m.msgId != x) evs) :
    pendingGet (removeMessageByMsgId s x).pendingTimeouts x = none ∧
    MsgSafe (fun m => m.msgId != x) (removeMessageByMsgId s x) ∧
    MsgSafe (fun m => m.msgId != x)
      (run cfg delay (removeMessageByMsgId s x) evs) := by
  have wf1' : ∀ p ∈ s.pendingTimeouts, p.message.msgId = p.key :=
    fun p hp => by simpa using List.all_eq_true.mp wf1 p hp
  have wf2' : ∀ tmr ∈ s.timers, tmr.message.msgId = x →
      ∃ p, pendingGet s.pendingTimeouts x = some p ∧ tmr.tid = p.tid := by
    intro tmr htmr hX
    have h := List.all_eq_true.mp wf2 tmr htmr
    rw [Bool.or_eq_true] at h
    rcases h with h | h
    · exact absurd hX (by simpa [bne] using h)
    · cases hg : pendingGet s.pendingTimeouts x with
      | none =>
        rw [hg] at h
        exact absurd h (by simp)
      | some p =>
        rw [hg] at h
        exact ⟨p, rfl, by simpa using h⟩
  have h0 := msgSafe_after_delete wf1' wf2'
  exact ⟨pendingGet_after_delete s x, h0,
    msgSafe_run cfg delay evs _ h0 hevs⟩

/-- C2 witness: schedule the unprivileged message `mPleb` (msgId "p1"),
delete "p1" while it is still pending, then let its timer slot fire; the
pending table stays empty and the message never reaches history. -/
theorem deleteMsgId_permanent_witness :
    pendingGet (removeMessageByMsgId
      (run DEFAULT_CONFIG DEFAULT_DELAY_MS initState
        [(Event.recv mPleb, 0)]) "p1").pendingTimeouts "p1" = none ∧
    MsgSafe (fun m => m.msgId != "p1")
      (run DEFAULT_CONFIG DEFAULT_DELAY_MS
        (removeMessageByMsgId
          (run DEFAULT_CONFIG DEFAULT_DELAY_MS initState
            [(Event.recv mPleb, 0)]) "p1")
        [(Event.fire 0, 9000)]) := by
  have h := deleteMsgId_permanent DEFAULT_CONFIG DEFAULT_DELAY_MS
    (run DEFAULT_CONFIG DEFAULT_DELAY_MS initState [(Event.recv mPleb, 0)])
    "p1" [(Event.fire 0, 9000)] (by decide) (by decide) (by decide)
  exact ⟨h.1, h.2.2⟩

/-- C3 counterexample: `mNoId` is an unprivileged message from "Mallory"
with no platform `msgId`, so its delay timer is never registered in the
pending table.  Banning "Mallory" while it is in flight cancels nothing,
and when the timer fires the message still commits — after the ban a
committed message attributed to the banned user exists, contradicting the
claim that no pending or committed message of that user remains or later
commits. -/
theorem banUser_claim_counterexample :
    toLowerStr mNoId.displayName = toLowerStr "Mallory" ∧
    (run DEFAULT_CONFIG DEFAULT_DELAY_MS initState
      [(Event.recv mNoId, 0), (Event.banUser "Mallory", 1),
       (Event.fire 0, DEFAULT_DELAY_MS)]).messages = [mNoId] := by
  decide

/-- C3 (amended): banning author key `u` cancels every tracked pending
entry whose author display name matches `u` case-insensitively (no
surviving timer has the tid of a matching entry) and removes every
committed message by that author; afterwards, along any trace whose
receive events carry no message of that author, no message of that author
is present in history, in any live timer, or in the pending table.
Messages that were scheduled without a `msgId` are not tracked by the
pending table and are outside this guarantee (see the counterexample).
The hypothesis states what holds for states where every in-flight timer
carrying the banned author's message is registered in the pending
table. -/
theorem banUser_eradicates_tracked (cfg : ChatConfig) (delay : Nat)
    (s : ChatState) (u : String) (evs : List (Event × Nat))
    (wf : s.timers.all (fun tmr =>
      (toLowerStr tmr.message.displayName != toLowerStr u) ||
      s.pendingTimeouts.any (fun p =>
        p.tid == tmr.tid &&
        (toLowerStr p.message.displayName == toLowerStr u))) = true)
    (hevs : EventsSafe
      (fun m => toLowerStr m.displayName != toLowerStr u) evs) :
    (∀ p0 ∈ s.pendingTimeouts,
      toLowerStr p0.message.displayName = toLowerStr u →
      ∀ tmr ∈ (removeMessagesByUser s u).timers, tmr.tid ≠ p0.tid) ∧
    MsgSafe (fun m => toLowerStr m.displayName != toLowerStr u)
      (removeMessagesByUser s u) ∧
    MsgSafe (fun m => toLowerStr m.displayName != toLowerStr u)
      (run cfg delay (removeMessagesByUser s u) evs) := by
  have wf' : ∀ tmr ∈ s.timers,
      toLowerStr tmr.message.displayName = toLowerStr u →
      ∃ p ∈ s.pendingTimeouts, p.tid = tmr.tid ∧
        toLowerStr p.message.displayName = toLowerStr u := by
    intro tmr htmr hX
    have h := List.all_eq_true.mp wf tmr htmr
    rw [Bool.or_eq_true] at h
    rcases h with h | h
    · exact absurd hX (by simpa [bne] using h)
    · rcases List.any_eq_true.mp h with ⟨p, hp, hcond⟩
      rw [Bool.and_eq_true] at hcond
      exact ⟨p, hp, by simpa using hcond.1, by simpa using hcond.2⟩
  have h0 := msgSafe_after_ban wf'
  exact ⟨fun p0 hp0 hm => cancelled_timer_banned hp0 hm,
    h0, msgSafe_run cfg delay evs _ h0 hevs⟩

/-- C3 witness: Bob's tracked pending message is eradicated by banning
"BOB" (case-insensitive), both immediately and after the timer slot
fires. -/
theorem banUser_eradicates_tracked_witness :
    MsgSafe (fun m => toLowerStr m.displayName != toLowerStr "BOB")
      (removeMessagesByUser
        (run DEFAULT_CONFIG DEFAULT_DELAY_MS initState
          [(Event.recv mPleb, 0)]) "BOB") ∧
    MsgSafe (fun m => toLowerStr m.displayName != toLowerStr "BOB")
      (run DEFAULT_CONFIG DEFAULT_DELAY_MS
        (removeMessagesByUser
          (run DEFAULT_CONFIG DEFAULT_DELAY_MS initState
            [(Event.recv mPleb, 0)]) "BOB")
        [(Event.fire 0, 9000)]) := by
  have h := banUser_eradicates_tracked DEFAULT_CONFIG DEFAULT_DELAY_MS
    (run DEFAULT_CONFIG DEFAULT_DELAY_MS initState [(Event.recv mPleb, 0)])
    "BOB" [(Event.fire 0, 9000)] (by decide) (by decide)
  exact ⟨h.2.1, h.2.2⟩

/-- C4: from the empty initial state, every reachable state of the
pipeline holds at most `messagesLimit` committed messages; a commit only
ever drops a prefix of the appended history (the oldest entries first);
and scheduling a non-privileged message never touches history, so a burst
of scheduled messages evicts nothing. -/
theorem historyCap_invariant (cfg : ChatConfig) (delay : Nat)
    (evs : List (Event × Nat)) (hcap : 0 < cfg.messagesLimit) :
    (run cfg delay initState evs).messages.length ≤ cfg.messagesLimit ∧
    (∀ s m now, ∃ k,
      (addMessage cfg s m now).messages = (s.messages ++ [m]).drop k) ∧
    (∀ s m t, hasPrivilegedBadge m.badges = false →
      (handleNewMessage cfg delay s m t).messages = s.messages) := by
  refine ⟨?_, ?_, ?_⟩
  · exact length_messages_run cfg delay hcap evs initState
      (by simp [initState])
  · exact fun s m now => addMessage_drops_oldest cfg s m now
  · exact fun s m t h => messages_handleNewMessage_nonpriv cfg delay s m t h

/-- C4 witness: the cap holds on a concrete trace, and receiving an
unprivileged message leaves history untouched. -/
theorem historyCap_invariant_witness :
    0 < DEFAULT_CONFIG.messagesLimit ∧
    (run DEFAULT_CONFIG DEFAULT_DELAY_MS initState
      [(Event.recv mMod, 0), (Event.recv mPleb, 1),
       (Event.fire 0, 9000)]).messages.length ≤
        DEFAULT_CONFIG.messagesLimit ∧
    (handleNewMessage DEFAULT_CONFIG DEFAULT_DELAY_MS initState mPleb
      0).messages = initState.messages := by
  refine ⟨by decide, ?_, ?_⟩
  · exact (historyCap_invariant DEFAULT_CONFIG DEFAULT_DELAY_MS
      [(Event.recv mMod, 0), (Event.recv mPleb, 1), (Event.fire 0, 9000)]
      (by decide)).1
  · exact (historyCap_invariant DEFAULT_CONFIG DEFAULT_DELAY_MS []
      (by decide)).2.2 initState mPleb 0 (by decide)

/-- C5 counterexample: two id-less messages identical except for a one
millisecond difference in timestamp get different dedup keys — the
fallback composite embeds the exact millisecond timestamp, so no coarse
time bucket is involved (any bucket coarser than one millisecond would
have merged these two). -/
theorem dedupKey_claim_counterexample :
    mPlebT1000.provider = mPlebT1001.provider ∧
    mPlebT1000.userId = mPlebT1001.userId ∧
    mPlebT1000.text = mPlebT1001.text ∧
    mPlebT1000.msgId = "" ∧ mPlebT1001.msgId = "" ∧
    getMessageKey mPlebT1000 ≠ getMessageKey mPlebT1001 := by
  decide

/-- C5 (amended): the dedup key is the platform `msgId` when present and
otherwise the composite `provider-userId-text-timestamp` with the exact
millisecond timestamp; a message whose key is already in the seen set
leaves the state completely untouched (dropped before filtering); and
processing a second event carrying the same `msgId` immediately after the
first changes nothing, so exactly one pending/committed entry results. -/
theorem dedupKey_and_idempotence (cfg : ChatConfig) (delay : Nat)
    (s : ChatState) (m1 m2 : ChatMessage) (t1 t2 : Nat) :
    (m1.msgId ≠ "" → getMessageKey m1 = m1.msgId) ∧
    (m1.msgId = "" → getMessageKey m1 =
      m1.provider ++ "-" ++ m1.userId ++ "-" ++ m1.text ++ "-" ++
        toString m1.timestamp) ∧
    (s.processed.contains (getMessageKey m1) = true →
      handleNewMessage cfg delay s m1 t1 = s) ∧
    (m2.msgId = m1.msgId → m1.msgId ≠ "" →
      handleNewMessage cfg delay (handleNewMessage cfg delay s m1 t1) m2
        t2 = handleNewMessage cfg delay s m1 t1) := by
  refine ⟨?_, ?_, ?_, ?_⟩
  · intro h
    unfold getMessageKey
    rw [if_neg h]
  · intro h
    unfold getMessageKey
    rw [if_pos h]
  · intro h
    exact handleNewMessage_drop cfg delay h
  · intro hmm hne
    apply handleNewMessage_drop
    have h2 : m2.msgId ≠ "" := by
      rw [hmm]
      exact hne
    have hk : getMessageKey m2 = getMessageKey m1 := by
      unfold getMessageKey
      rw [if_neg h2, if_neg hne, hmm]
    rw [hk]
    exact contains_processed_handleNewMessage cfg delay s m1 t1

/-- C5 witness: the key of `mPleb` is its msgId, and replaying the same
message right after it was processed changes nothing. -/
theorem dedupKey_and_idempotence_witness :
    getMessageKey mPleb = "p1" ∧
    run DEFAULT_CONFIG DEFAULT_DELAY_MS initState
        [(Event.recv mPleb, 0), (Event.recv mPleb, 1)] =
      run DEFAULT_CONFIG DEFAULT_DELAY_MS initState
        [(Event.recv mPleb, 0)] := by
  constructor
  · exact (dedupKey_and_idempotence DEFAULT_CONFIG DEFAULT_DELAY_MS
      initState mPleb mPleb 0 1).1 (by decide)
  · show handleNewMessage DEFAULT_CONFIG DEFAULT_DELAY_MS
      (handleNewMessage DEFAULT_CONFIG DEFAULT_DELAY_MS initState mPleb 0)
      mPleb 1 =
        handleNewMessage DEFAULT_CONFIG DEFAULT_DELAY_MS initState mPleb 0
    exact (dedupKey_and_idempotence DEFAULT_CONFIG DEFAULT_DELAY_MS
      initState mPleb mPleb 0 1).2.2.2 rfl (by decide)

/-- C6 counterexample: an unprivileged message with no `msgId` passes
dedup and filtering and gets a live delay timer, yet no entry is recorded
in the pending-timer table — the code registers entries only under a real
`msgId` and synthesizes no fallback key. -/
theorem pendingTable_claim_counterexample :
    (handleNewMessage DEFAULT_CONFIG DEFAULT_DELAY_MS initState mNoId
      0).timers = [⟨0, mNoId, DEFAULT_DELAY_MS⟩] ∧
    (handleNewMessage DEFAULT_CONFIG DEFAULT_DELAY_MS initState mNoId
      0).pendingTimeouts = [] := by
  decide

/-- C6 (amended): a scheduled non-privileged message with a `msgId` gets a
pending-table entry keyed by that `msgId`; one without a `msgId` gets no
table entry at all; and an entry is destroyed when its message commits
(`addMessage` erases the key), when the key is deleted, and when its
author is banned. -/
theorem pendingTable_lifecycle (cfg : ChatConfig) (delay : Nat)
    (s : ChatState) (m : ChatMessage) (t : Nat)
    (hkey : s.processed.contains (getMessageKey m) = false)
    (hhide : shouldHideMessage m.text cfg.hideCommands cfg.ignoredUsers
      m.displayName = false)
    (hpriv : hasPrivilegedBadge m.badges = false) :
    (m.msgId ≠ "" →
      pendingGet (handleNewMessage cfg delay s m t).pendingTimeouts
        m.msgId = some ⟨m.msgId, s.nextTid, m⟩) ∧
    (m.msgId = "" →
      (handleNewMessage cfg delay s m t).pendingTimeouts =
        s.pendingTimeouts) ∧
    (∀ s2 m2 now, m2.msgId ≠ "" →
      pendingGet (addMessage cfg s2 m2 now).pendingTimeouts m2.msgId =
        none) ∧
    (∀ s2 x, pendingGet (removeMessageByMsgId s2 x).pendingTimeouts x =
      none) ∧
    (∀ s2 u, ∀ p ∈ (removeMessagesByUser s2 u).pendingTimeouts,
      (toLowerStr p.message.displayName != toLowerStr u) = true) := by
  refine ⟨?_, ?_, ?_, ?_, ?_⟩
  · intro hm
    unfold handleNewMessage
    rw [if_neg (by simpa using hkey), if_neg (by simp [hhide]),
      if_neg (by simp [hpriv]), if_pos (by simpa using hm)]
    exact pendingGet_pendingSet _ _
  · intro hm
    unfold handleNewMessage
    rw [if_neg (by simpa using hkey), if_neg (by simp [hhide]),
      if_neg (by simp [hpriv]), if_neg (by simp [hm])]
  · intro s2 m2 now hm2
    rw [pendingTimeouts_addMessage, if_pos (by simpa using hm2)]
    exact pendingGet_pendingErase _ _
  · exact fun s2 x => pendingGet_after_delete s2 x
  · intro s2 u p hp
    unfold removeMessagesByUser at hp
    simp only at hp
    exact (List.mem_filter.mp hp).2

/-- C6 witness: `mPleb` (msgId "p1") gets a table entry when scheduled, and
the entry is gone once the message commits. -/
theorem pendingTable_lifecycle_witness :
    pendingGet (handleNewMessage DEFAULT_CONFIG DEFAULT_DELAY_MS initState
      mPleb 0).pendingTimeouts "p1" = some ⟨"p1", 0, mPleb⟩ ∧
    pendingGet (addMessage DEFAULT_CONFIG
      (handleNewMessage DEFAULT_CONFIG DEFAULT_DELAY_MS initState mPleb 0)
      mPleb 9000).pendingTimeouts "p1" = none := by
  constructor
  · exact (pendingTable_lifecycle DEFAULT_CONFIG DEFAULT_DELAY_MS initState
      mPleb 0 (by decide) (by decide) (by decide)).1 (by decide)
  · exact (pendingTable_lifecycle DEFAULT_CONFIG DEFAULT_DELAY_MS initState
      mPleb 0 (by decide) (by decide) (by decide)).2.2.1
      (handleNewMessage DEFAULT_CONFIG DEFAULT_DELAY_MS initState mPleb 0)
      mPleb 9000 (by decide)

lemma connectToPusher_steps {s : KickState} {cid : Nat}
    (h : s.chatroomId = some cid) :
    (connectToPusher s).steps = s.steps ++ [KickStep.openSocket] ∧
    (connectToPusher s).chatroomId = some cid := by
  unfold connectToPusher
  rw [h]
  exact ⟨rfl, rfl⟩

/-- C7 counterexample: after a successful connect (channel resolved to
chatroom 7) and a socket close, firing the scheduled reconnect runs only
the socket stage; it does not re-run the full connect sequence — no
channel-info fetch precedes the socket reopen, contradicting the claim
that the reconnect re-runs the full connect sequence. -/
theorem kickReconnect_claim_counterexample :
    (fireReconnect (onSocketClose (onSocketOpen
      (connect initKick (some 7))))).steps =
      [KickStep.fetchChannelInfo, KickStep.openSocket,
       KickStep.openSocket] ∧
    (fireReconnect (onSocketClose (onSocketOpen
      (connect initKick (some 7))))).steps ≠
      (onSocketClose (onSocketOpen (connect initKick (some 7)))).steps ++
        [KickStep.fetchChannelInfo, KickStep.openSocket] := by
  decide

/-- C7 (amended): whenever the pub/sub socket closes, the connector marks
itself disconnected and schedules exactly one reconnect after the fixed
5000 ms delay — the same constant on every close, so repeated failures
reuse the same interval, never exponential backoff — and the reconnect
re-runs only the socket stage (`connectToPusher`), reusing the cached
chatroom id without re-fetching the channel info. -/
theorem kickReconnect_fixed_delay (s : KickState) (cid : Nat)
    (h : s.chatroomId = some cid) :
    (onSocketClose s).connected = false ∧
    (onSocketClose s).reconnectDelayMs = some RECONNECT_DELAY_MS ∧
    RECONNECT_DELAY_MS = 5000 ∧
    (∀ s2 : KickState,
      (onSocketClose s2).reconnectDelayMs = some RECONNECT_DELAY_MS) ∧
    (fireReconnect s).steps = s.steps ++ [KickStep.openSocket] ∧
    (fireReconnect s).chatroomId = some cid := by
  refine ⟨rfl, rfl, rfl, fun s2 => rfl, ?_, ?_⟩
  · exact (connectToPusher_steps
      (show ({ s with reconnectDelayMs := none } :
        KickState).chatroomId = some cid from h)).1
  · exact (connectToPusher_steps
      (show ({ s with reconnectDelayMs := none } :
        KickState).chatroomId = some cid from h)).2

/-- C7 witness: concrete close/reconnect cycle for chatroom 7. -/
theorem kickReconnect_fixed_delay_witness :
    (onSocketClose (onSocketOpen (connect initKick
      (some 7)))).reconnectDelayMs = some RECONNECT_DELAY_MS ∧
    (fireReconnect (onSocketOpen (connect initKick (some 7)))).steps =
      (onSocketOpen (connect initKick (some 7))).steps ++
        [KickStep.openSocket] := by
  have h := kickReconnect_fixed_delay
    (onSocketOpen (connect initKick (some 7))) 7 (by decide)
  exact ⟨h.2.1, h.2.2.2.2.1⟩

/-- C8 counterexample: the connector's actual subscribe frame uses event
"pusher:subscribe" and its heartbeat uses event "pusher:ping", not the
bare "subscribe"/"ping" event names the claim specifies. -/
theorem kickHandshake_claim_counterexample :
    (onConnectionEstablished (onSocketOpen (connect initKick
      (some 7)))).sent = [subscribePayload 7] ∧
    subscribePayload 7 ≠ claimSubscribePayload 7 ∧
    (heartbeatTick (onSocketOpen (connect initKick (some 7)))).sent =
      [pingPayload] ∧
    pingPayload ≠ claimPingPayload := by
  decide

/-- C8 (amended): after the connection-established event, the connector
sends exactly one subscribe frame with event "pusher:subscribe",
auth "" and channel "chatrooms.{id}.v2" for the resolved chatroom id, and
each heartbeat tick while the socket is open sends exactly the frame with
event "pusher:ping" and empty data, on the fixed 30000 ms interval
started when the socket opens. -/
theorem kickHandshake_payloads (s : KickState) (cid : Nat)
    (h : s.chatroomId = some cid) :
    (onConnectionEstablished s).sent = s.sent ++ [subscribePayload cid] ∧
    subscribePayload cid = ⟨"pusher:subscribe", some "",
      some ("chatrooms." ++ toString cid ++ ".v2")⟩ ∧
    (∀ s2 : KickState, s2.socketOpen = true →
      (heartbeatTick s2).sent = s2.sent ++ [pingPayload]) ∧
    pingPayload = ⟨"pusher:ping", none, none⟩ ∧
    (onSocketOpen s).heartbeatEveryMs = some HEARTBEAT_INTERVAL_MS ∧
    HEARTBEAT_INTERVAL_MS = 30000 := by
  refine ⟨?_, rfl, ?_, rfl, rfl, rfl⟩
  · have hct : chatroomIdText s.chatroomId = toString cid := by
      rw [h]
      rfl
    unfold onConnectionEstablished
    rw [hct]
    rfl
  · intro s2 hs2
    unfold heartbeatTick
    rw [if_pos hs2]

/-- C8 witness: the concrete handshake for chatroom 7. -/
theorem kickHandshake_payloads_witness :
    (onConnectionEstablished (onSocketOpen (connect initKick
      (some 7)))).sent =
      (onSocketOpen (connect initKick (some 7))).sent ++
        [subscribePayload 7] ∧
    (heartbeatTick (onSocketOpen (connect initKick (some 7)))).sent =
      (onSocketOpen (connect initKick (some 7))).sent ++ [pingPayload] := by
  have h := kickHandshake_payloads
    (onSocketOpen (connect initKick (some 7))) 7 (by decide)
  exact ⟨h.1, h.2.2.1 _ (by decide)⟩

/-- C9 counterexample: for a subscriber badge whose version is UUID-shaped
and absent from both catalogs, the code constructs a URL from the version
itself (a fourth tier the claim omits), while the claim's three-tier
lookup would use the hardcoded subscriber UUID — the two resolutions
differ. -/
theorem badgeUrl_claim_counterexample :
    getBadgeUrl [] [] "subscriber" uuidEx ≠
      getBadgeUrlClaim [] [] "subscriber" uuidEx ∧
    getBadgeUrl [] [] "subscriber" uuidEx =
      "https://static-cdn.jtvnw.net/badges/v1/" ++ uuidEx ++ "/2" ∧
    getBadgeUrlClaim [] [] "subscriber" uuidEx =
      "https://static-cdn.jtvnw.net/badges/v1/" ++
        "5d9f2208-5dd8-11e7-8513-2ff4adfae661" ++ "/" ++ uuidEx := by
  decide

/-- C9 (amended): badge URLs resolve through four tiers — the
channel-specific catalog when it has the (type, version) pair, else the
global catalog, else (for a subscriber badge with a UUID-shaped version)
a URL built from the version itself, else the hardcoded table, else the
empty string; and `parseBadges` attaches only badges whose resolved URL
is nonempty, each carrying exactly the URL the resolver produced. -/
theorem badgeUrl_resolution (ch gl : Catalog) (type version : String) :
    (∀ bv, (catGet ch type).bind (fun vs => verGet vs version) = some bv →
      getBadgeUrl ch gl type version =
        jsOr bv.image_url_2x bv.image_url_1x) ∧
    ((catGet ch type).bind (fun vs => verGet vs version) = none →
      (∀ bv, (catGet gl type).bind (fun vs => verGet vs version) =
          some bv →
        getBadgeUrl ch gl type version =
          jsOr bv.image_url_2x bv.image_url_1x) ∧
      ((catGet gl type).bind (fun vs => verGet vs version) = none →
        ((type == "subscriber" && version != "" &&
            isSubscriberUuid version) = true →
          getBadgeUrl ch gl type version =
            "https://static-cdn.jtvnw.net/badges/v1/" ++ version ++
              "/2") ∧
        ((type == "subscriber" && version != "" &&
            isSubscriberUuid version) = false →
          getBadgeUrl ch gl type version =
            (match (badgeUuids.find? (fun e => e.1 == type)).map
                (fun e => e.2) with
             | some uuid =>
               "https://static-cdn.jtvnw.net/badges/v1/" ++ uuid ++ "/" ++
                 version
             | none => "")))) ∧
    (∀ entries, ∀ b ∈ parseBadges ch gl entries,
      b.url = getBadgeUrl ch gl b.type b.version ∧
        (b.url != "") = true) := by
  refine ⟨?_, ?_, ?_⟩
  · intro bv hbv
    unfold getBadgeUrl
    rw [hbv]
  · intro hch
    constructor
    · intro bv hbv
      unfold getBadgeUrl
      rw [hch, hbv]
    · intro hgl
      constructor
      · intro hsub
        unfold getBadgeUrl
        rw [hch, hgl, if_pos hsub]
      · intro hsub
        unfold getBadgeUrl
        rw [hch, hgl, if_neg (by simp [hsub])]
  · intro entries b hb
    unfold parseBadges at hb
    have hmf := List.mem_filter.mp hb
    rcases List.mem_map.mp hmf.1 with ⟨tv, htv, hb'⟩
    subst hb'
    exact ⟨rfl, hmf.2⟩

/-- C9 witness: channel overrides global, global is used when the channel
catalog lacks the pair, a UUID-version subscriber badge missing from both
catalogs resolves through the UUID tier, and an unknown badge resolves to
the empty URL. -/
theorem badgeUrl_resolution_witness :
    getBadgeUrl chEx glEx "moderator" "1" =
      jsOr bvModCh.image_url_2x bvModCh.image_url_1x ∧
    getBadgeUrl [] glEx "moderator" "1" =
      jsOr bvModGl.image_url_2x bvModGl.image_url_1x ∧
    getBadgeUrl [] [] "subscriber" uuidEx =
      "https://static-cdn.jtvnw.net/badges/v1/" ++ uuidEx ++ "/2" ∧
    getBadgeUrl [] [] "unknown-badge" "1" = "" := by
  refine ⟨?_, ?_, ?_, ?_⟩
  · exact (badgeUrl_resolution chEx glEx "moderator" "1").1 bvModCh
      (by decide)
  · exact ((badgeUrl_resolution [] glEx "moderator" "1").2.1
      (by decide)).1 bvModGl (by decide)
  · exact ((((badgeUrl_resolution [] [] "subscriber" uuidEx).2.1
      (by decide)).2 (by decide)).1 (by decide))
  · exact ((((badgeUrl_resolution [] [] "unknown-badge" "1").2.1
      (by decide)).2 (by decide)).2 (by decide)).trans (by decide)

/-- C10: for any `hideAfter` other than the sentinel 180 a hide timer of
`hideAfter` seconds targeting the rendered message's `id` is created, at
the sentinel none is (and the app's fixed configuration sits at the
sentinel, so its messages are never auto-hidden); firing the timer's
callback removes exactly the messages with that `id` from history and
touches neither the pending table nor the live delay timers — the hide
timer is independent of the moderation-delay machinery. -/
theorem hideTimer_behavior (hideAfter : Nat) (s : ChatState)
    (m : ChatMessage) :
    (hideAfter ≠ 180 →
      messageRowHideTimer hideAfter m.id = some (hideAfter * 1000, m.id)) ∧
    (hideAfter = 180 → messageRowHideTimer hideAfter m.id = none) ∧
    messageRowHideTimer DEFAULT_CONFIG.hideAfter m.id = none ∧
    (∀ x ∈ (removeMessage s m.id).messages, (x.id != m.id) = true) ∧
    (removeMessage s m.id).pendingTimeouts = s.pendingTimeouts ∧
    (removeMessage s m.id).timers = s.timers := by
  refine ⟨?_, ?_, ?_, ?_, rfl, rfl⟩
  · intro h
    unfold messageRowHideTimer
    rw [if_pos h]
  · intro h
    unfold messageRowHideTimer
    rw [if_neg (by simp [h])]
  · unfold messageRowHideTimer
    rw [if_neg (show ¬(DEFAULT_CONFIG.hideAfter ≠ 180) by decide)]
  · intro x hx
    exact (List.mem_filter.mp hx).2

/-- C10 witness: a 30-second TTL schedules a hide timer, the sentinel 180
schedules none, and removing by id leaves the pending table alone. -/
theorem hideTimer_behavior_witness :
    messageRowHideTimer 30 mMod.id = some (30 * 1000, mMod.id) ∧
    messageRowHideTimer 180 mMod.id = none ∧
    (removeMessage (run DEFAULT_CONFIG DEFAULT_DELAY_MS initState
      [(Event.recv mPleb, 0)]) mMod.id).pendingTimeouts =
      (run DEFAULT_CONFIG DEFAULT_DELAY_MS initState
        [(Event.recv mPleb, 0)]).pendingTimeouts := by
  refine ⟨?_, ?_, ?_⟩
  · exact (hideTimer_behavior 30 initState mMod).1 (by decide)
  · exact (hideTimer_behavior 180 initState mMod).2.1 rfl
  · exact (hideTimer_behavior 30
      (run DEFAULT_CONFIG DEFAULT_DELAY_MS initState
        [(Event.recv mPleb, 0)]) mMod).2.2.2.2.1

end MultistreamChat
